import Mathlib

/-!
Verification development for the `glm_mda_diffusion` package
(`glm_mda_diffusion/glm_mda_diffusion.py`).

The development shallowly embeds the numerical pipeline:
* the sequence parser `_bead_description_compact` (including the exact
  semantics of `re.split("(\[[A-Z].*?\])", s)` with a capturing group),
* the bead-radius expanders `_bead_steric_radii` / `_bead_hydrodynamic_radii`,
* the effective-radius aggregation (mean, per-block trace, inverse, entry sum,
  division by `2π`) from `protein_hydrodynamic_radius`,
* the bootstrap uncertainty estimation, with the random index draws passed in
  as an explicit parameter.

Python floats are modelled as real numbers; `numpy` arrays of shape
`(M, N, N, 3, 3)` are modelled as lists of functions
`Fin N → Fin N → Matrix (Fin 3) (Fin 3) ℝ`.
-/

/-- The character class `[A-Z]` of the block regex. -/
def isUpperAZ (c : Char) : Bool := decide ('A' ≤ c ∧ c ≤ 'Z')

/-- Scan for the closing `]` matched by the lazy `.*?\]` part of the block
regex: the first `]` counts, and `.` cannot consume a newline.  Returns the
consumed interior and the remainder after the `]`. -/
def findClose : List Char → Option (List Char × List Char)
  | [] => none
  | c :: rest =>
    if c = ']' then some ([], rest)
    else if c = '\n' then none
    else
      match findClose rest with
      | some (ins, rest') => some (c :: ins, rest')
      | none => none

/-- Try to match the regex `\[[A-Z].*?\]` at the head of the string.  On
success returns the matched block (brackets included) and the remainder. -/
def matchAt : List Char → Option (List Char × List Char)
  | c0 :: c1 :: rest =>
    if c0 = '[' ∧ isUpperAZ c1 then
      match findClose rest with
      | some (ins, rest') => some (c0 :: c1 :: (ins ++ [']']), rest')
      | none => none
    else none
  | _ => none

/-- Fuel-indexed scanner for `re.split("(\[[A-Z].*?\])", s)`: pieces of text
between matches alternate with the captured matches, including the (possibly
empty) piece before the first match and after the last one.  The fuel only
serves termination; `fuel ≥ s.length` always suffices because every step
consumes at least one character. -/
def splitGo : ℕ → List Char → List (List Char)
  | 0, s => [s]
  | _ + 1, [] => [[]]
  | fuel + 1, c :: rest =>
    match matchAt (c :: rest) with
    | some (m, rest') => [] :: m :: splitGo fuel rest'
    | none =>
      match splitGo fuel rest with
      | [] => [[c]]
      | p :: ps => (c :: p) :: ps

/-- The split `re.split("(\[[A-Z].*?\])", s)` with its capturing group, as used by
`_bead_description_compact`. -/
def splitBlocks (s : List Char) : List (List Char) := splitGo s.length s

/-- The test `len(block) >= 2 and block[0] == "[" and block[-1] == "]"`. -/
def bracketShape (b : List Char) : Bool :=
  decide (2 ≤ b.length) && (b.head? == some '[') && (b.getLast? == some ']')

/-- The test `len(block) > 0 and block[0] != "[" and block[-1] != "]"`. -/
def freeShape (b : List Char) : Bool :=
  decide (0 < b.length) && !(b.head? == some '[') && !(b.getLast? == some ']')

/-- Failure modes of the parser: the `ValueError("Malformed seqence passed: "
+ block)` raise, and the `KeyError` escaping from the mass lookup
`aminoacid_masses[aa]`. -/
inductive ParseErr where
  | malformed (block : List Char)
  | unknownResidue (c : Char)
deriving DecidableEq

/-- One entry of the compact bead description.  The source appends triples
`[hydrodynamic_radius, steric_radius, count]`. -/
structure BeadGroup where
  hydrodynamic_radius : ℝ
  steric_radius : ℝ
  count : ℕ

/-- The sum `sum(aminoacid_masses[aa] for aa in block)`: left-to-right summation,
failing with a `KeyError` at the first symbol absent from the mapping. -/
noncomputable def blockMass (masses : Char → Option ℝ) : List Char → Except ParseErr ℝ
  | [] => Except.ok 0
  | c :: rest =>
    match masses c with
    | none => Except.error (ParseErr.unknownResidue c)
    | some m =>
      match blockMass masses rest with
      | Except.error e => Except.error e
      | Except.ok s => Except.ok (m + s)

/-- The radius `(block_mass * (3 / (4 * math.pi)) / effective_density) ** (1 / 3)`. -/
noncomputable def block_excluded_volume_radius (mass effective_density : ℝ) : ℝ :=
  (mass * (3 / (4 * Real.pi)) / effective_density) ^ ((1 : ℝ) / 3)

/-- The body of the `for block in blocks` loop of `_bead_description_compact`:
classify one piece produced by the splitter and turn it into a bead group. -/
noncomputable def bdcBlock (hydrodynamic_radius steric_radius effective_density
    hydration_thickness : ℝ) (masses : Char → Option ℝ) (block : List Char) :
    Except ParseErr BeadGroup :=
  if bracketShape block then
    match blockMass masses ((block.drop 1).dropLast) with
    | Except.error e => Except.error e
    | Except.ok mass =>
      let block_radius := block_excluded_volume_radius mass effective_density
        + hydration_thickness
      Except.ok ⟨block_radius, block_radius, 1⟩
  else if freeShape block then
    Except.ok ⟨hydrodynamic_radius, steric_radius, block.length⟩
  else
    Except.error (ParseErr.malformed block)

/-- The loop of `_bead_description_compact`: process the pieces left to
right, appending one bead group per piece and aborting at the first raise. -/
noncomputable def bdcList (hydrodynamic_radius steric_radius effective_density
    hydration_thickness : ℝ) (masses : Char → Option ℝ) :
    List (List Char) → Except ParseErr (List BeadGroup)
  | [] => Except.ok []
  | b :: bs =>
    match bdcBlock hydrodynamic_radius steric_radius effective_density
        hydration_thickness masses b with
    | Except.error e => Except.error e
    | Except.ok g =>
      match bdcList hydrodynamic_radius steric_radius effective_density
          hydration_thickness masses bs with
      | Except.error e => Except.error e
      | Except.ok gs => Except.ok (g :: gs)

/-- The parser `_bead_description_compact`: split the annotated sequence on bracketed
blocks and convert each piece to a bead group. -/
noncomputable def _bead_description_compact (annotated_sequence : List Char)
    (hydrodynamic_radius steric_radius effective_density hydration_thickness : ℝ)
    (aminoacid_masses : Char → Option ℝ) : Except ParseErr (List BeadGroup) :=
  bdcList hydrodynamic_radius steric_radius effective_density hydration_thickness
    aminoacid_masses (splitBlocks annotated_sequence)

/-- The module-level `default_aminoacid_masses` table (units: Da). -/
noncomputable def default_aminoacid_masses : Char → Option ℝ := fun c =>
  if c = 'A' then some 71.08
  else if c = 'C' then some 103.14
  else if c = 'D' then some 115.09
  else if c = 'E' then some 129.12
  else if c = 'F' then some 147.18
  else if c = 'G' then some 57.06
  else if c = 'H' then some 137.15
  else if c = 'I' then some 113.17
  else if c = 'K' then some 128.18
  else if c = 'L' then some 113.17
  else if c = 'M' then some 131.21
  else if c = 'N' then some 114.11
  else if c = 'P' then some 97.12
  else if c = 'Q' then some 128.41
  else if c = 'R' then some 156.2
  else if c = 'S' then some 87.08
  else if c = 'T' then some 101.11
  else if c = 'V' then some 99.14
  else if c = 'W' then some 186.21
  else if c = 'Y' then some 163.18
  else if c = 'Z' then some 0
  else if c = 'O' then some 0
  else if c = 'U' then some 0
  else if c = 'J' then some 0
  else if c = 'X' then some 0
  else if c = 'B' then some 0
  else none

/-- The expander `_bead_steric_radii`, i.e. `sum(([sr] * n for (hr, sr, n) in bdc), [])`.
Python's `sum` with start `[]` is a left fold of list concatenation. -/
def _bead_steric_radii (bead_description_compact : List BeadGroup) : List ℝ :=
  (bead_description_compact.map
    (fun g => List.replicate g.count g.steric_radius)).foldl (· ++ ·) []

/-- The expander `_bead_hydrodynamic_radii`, i.e. `sum(([hr] * n for (hr, sr, n) in bdc), [])`. -/
def _bead_hydrodynamic_radii (bead_description_compact : List BeadGroup) : List ℝ :=
  (bead_description_compact.map
    (fun g => List.replicate g.count g.hydrodynamic_radius)).foldl (· ++ ·) []

/-- A mobility tensor for `N` beads: the `N×N` grid of `3×3` translational
blocks, i.e. a `numpy` array of shape `(N, N, 3, 3)` as returned by
`pygrpy.grpy_tensors.muTT`. -/
def MobT (n : ℕ) : Type := Fin n → Fin n → Matrix (Fin 3) (Fin 3) ℝ

/-- The mean `np.mean(grand_grand_mu, axis=0)`: the element-wise mean of the stacked
tensors, i.e. the element-wise sum divided by the ensemble size. -/
noncomputable def tensorMean {n : ℕ} (grand_grand_mu : List (MobT n)) : MobT n :=
  fun i j => ((grand_grand_mu.length : ℝ))⁻¹ • (grand_grand_mu.map (fun T => T i j)).sum

/-- The reduction `np.trace(grand_mu, axis1=-2, axis2=-1)`: reduce each `3×3` block to its
trace, yielding an `N×N` real matrix. -/
noncomputable def blockTrace {n : ℕ} (T : MobT n) : Matrix (Fin n) (Fin n) ℝ :=
  Matrix.of fun i j => Matrix.trace (T i j)

/-- Lines 130–135 of the source: the effective-radius reduction
`grand_mu = mean; grand_trace = blockwise trace; inv_mat = inverse;
total = sum of entries; effective_rh = total / (2π)`. -/
noncomputable def effective_rh {n : ℕ} (grand_grand_mu : List (MobT n)) : ℝ :=
  let grand_mu := tensorMean grand_grand_mu
  let grand_trace := blockTrace grand_mu
  let inv_mat := grand_trace⁻¹
  let total := ∑ i, ∑ j, inv_mat i j
  total / (2 * Real.pi)

/-- One bootstrap round (lines 142–153): gather the resampled ensemble
`grand_grand_mu[np.random.choice(M, M)]` for a given index draw `idx`, then
apply the same mean / trace / inverse / sum / `2π` chain. -/
noncomputable def bootstrap_round {n : ℕ} (grand_grand_mu : List (MobT n))
    (idx : Fin grand_grand_mu.length → Fin grand_grand_mu.length) : ℝ :=
  let b_grand_grand_mu := List.ofFn fun k => grand_grand_mu.get (idx k)
  let b_grand_mu := tensorMean b_grand_grand_mu
  let b_grand_trace := blockTrace b_grand_mu
  let b_inv_mat := b_grand_trace⁻¹
  let b_total := ∑ i, ∑ j, b_inv_mat i j
  b_total / (2 * Real.pi)

/-- The estimator `np.std(l)`: the population standard deviation
`sqrt(mean((x - mean(l))**2))`, i.e. with divisor `len(l)` (`ddof=0`). -/
noncomputable def popStd (l : List ℝ) : ℝ :=
  Real.sqrt ((l.map (fun x => (x - l.sum / (l.length : ℝ)) ^ 2)).sum / (l.length : ℝ))

/-- Lines 140–155: the bootstrap estimator.  The random draws of
`np.random.choice` are passed in explicitly, one index map per round;
the reported sigma is `np.std` of the per-round effective radii. -/
noncomputable def bootstrap_sigma {n : ℕ} (grand_grand_mu : List (MobT n))
    (bootstrap_rounds : ℕ)
    (draws : ℕ → Fin grand_grand_mu.length → Fin grand_grand_mu.length) : ℝ :=
  popStd (List.ofFn fun r : Fin bootstrap_rounds =>
    bootstrap_round grand_grand_mu (draws r))

/-- The dictionary returned by `protein_hydrodynamic_radius`: both keys are
always present; `protein_rh_sigma` holds `None` (here `none`) exactly when the
bootstrap branch was skipped. -/
structure RhResult where
  protein_rh : ℝ
  protein_rh_sigma : Option ℝ

/-- Lines 130–157 of `protein_hydrodynamic_radius`, from the collected
ensemble of mobility tensors onwards: compute `effective_rh`, then run the
bootstrap branch guarded only by `bootstrap_rounds != None`, and build the
returned record. -/
noncomputable def rhRecord {n : ℕ} (grand_grand_mu : List (MobT n))
    (draws : ℕ → Fin grand_grand_mu.length → Fin grand_grand_mu.length)
    (bootstrap_rounds : Option ℕ) : RhResult :=
  { protein_rh := effective_rh grand_grand_mu
    protein_rh_sigma :=
      match bootstrap_rounds with
      | none => none
      | some rounds => some (bootstrap_sigma grand_grand_mu rounds draws) }

/-- The reduction of 4.5, written from the spec's wording: the sum of all
entries of the inverse of the traced mean tensor, divided by `2π`. -/
noncomputable def effective_rh_specSide {n : ℕ} (grand_grand_mu : List (MobT n)) : ℝ :=
  (∑ i, ∑ j, ((blockTrace (tensorMean grand_grand_mu))⁻¹) i j) / (2 * Real.pi)

/-- The resampled ensemble of one bootstrap round, written from the spec's
wording: gather the tensors selected by the drawn indices. -/
noncomputable def resampledEnsemble {n : ℕ} (grand_grand_mu : List (MobT n))
    (idx : Fin grand_grand_mu.length → Fin grand_grand_mu.length) : List (MobT n) :=
  List.ofFn fun k => grand_grand_mu.get (idx k)

/-- The bootstrap estimator of 4.6, written from the spec's wording: apply
the full aggregator reduction to each resampled ensemble, and report the
population standard deviation (divisor: the number of rounds) of the
resulting bootstrap effective radii. -/
noncomputable def bootstrap_sigma_specSide {n : ℕ} (grand_grand_mu : List (MobT n))
    (bootstrap_rounds : ℕ)
    (draws : ℕ → Fin grand_grand_mu.length → Fin grand_grand_mu.length) : ℝ :=
  let radii := List.ofFn fun r : Fin bootstrap_rounds =>
    effective_rh (resampledEnsemble grand_grand_mu (draws r))
  Real.sqrt ((radii.map fun x => (x - radii.sum / (bootstrap_rounds : ℝ)) ^ 2).sum
    / (bootstrap_rounds : ℝ))

/-- Auxiliary: Python's `sum(list_of_lists, [])` is concatenation in order. -/
theorem foldl_append_eq_flatten {α : Type} (L : List (List α)) (acc : List α) :
    L.foldl (· ++ ·) acc = acc ++ L.flatten := by
  induction L generalizing acc with
  | nil => simp
  | cons x xs ih => simp [ih, List.append_assoc]

/-- Claim C1: for every ensemble of at least one mobility tensor, the source's
aggregation (lines 130–135) computes the effective radius exactly as the mean
of the tensors, followed by the per-3×3-block trace, matrix inversion, sum of
all entries, and division by `2π`, in that order. -/
theorem effective_rh_is_mean_trace_inv_sum_over_two_pi {n : ℕ}
    (grand_grand_mu : List (MobT n)) (h : 1 ≤ grand_grand_mu.length) :
    effective_rh grand_grand_mu = effective_rh_specSide grand_grand_mu := rfl

theorem effective_rh_is_mean_trace_inv_sum_over_two_pi_witness :
    1 ≤ ([fun _ _ => (1 : Matrix (Fin 3) (Fin 3) ℝ)] : List (MobT 1)).length
    ∧ effective_rh ([fun _ _ => (1 : Matrix (Fin 3) (Fin 3) ℝ)] : List (MobT 1))
      = effective_rh_specSide ([fun _ _ => (1 : Matrix (Fin 3) (Fin 3) ℝ)] : List (MobT 1)) :=
  ⟨by decide, effective_rh_is_mean_trace_inv_sum_over_two_pi _ (by decide)⟩

/-- Claim C2 (code behaviour at the failing input): on the sequence
`"[AAAA]"` the parser does not produce a bead group at all — the splitter
emits an empty piece before the bracketed block and the loop raises
`ValueError("Malformed seqence passed: ")` on it. -/
theorem parse_bracket_delimited_sequence_fails :
    _bead_description_compact "[AAAA]".data 4.2 1.9025 0.52 3.0 default_aminoacid_masses
      = Except.error (ParseErr.malformed []) := rfl

/-- Claim C3 (code behaviour at the failing input): the sequence `"AA[BB"`
with an unmatched opening bracket is not rejected; the parser accepts the
whole string as one free segment of five linker beads (the `[` counts as a
bead), so the pipeline goes on to invoke the chain generator. -/
theorem parse_unmatched_bracket_accepted :
    _bead_description_compact "AA[BB".data 4.2 1.9025 0.52 3.0 default_aminoacid_masses
      = Except.ok [⟨4.2, 1.9025, 5⟩] := rfl

/-- Claim C4 (code behaviour at the failing input): with
`bootstrap_rounds = 0` the bootstrap branch is still entered (the guard is
only `!= None`), so the returned record carries a computed sigma — `np.std`
of an empty list — rather than omitting the field. -/
theorem sigma_field_present_when_zero_rounds :
    (rhRecord [(fun _ _ => 1 : MobT 1)] (fun _ k => k) (some 0)).protein_rh_sigma
      = some (popStd [])
    ∧ (rhRecord [(fun _ _ => 1 : MobT 1)] (fun _ k => k) (some 0)).protein_rh_sigma ≠ none := by
  constructor
  · show some (bootstrap_sigma _ 0 _) = some (popStd [])
    rw [bootstrap_sigma, List.ofFn_zero]
  · show some (bootstrap_sigma _ 0 _) ≠ none
    exact fun hcontra => Option.noConfusion hcontra

/-- Claim C7: the expanders repeat each group's steric (resp. hydrodynamic)
radius exactly `count` times in group order, and both flat arrays have length
equal to the total bead count. -/
theorem expanders_repeat_radii_and_lengths_agree (bdc : List BeadGroup) :
    _bead_steric_radii bdc
      = (bdc.map fun g => List.replicate g.count g.steric_radius).flatten
    ∧ _bead_hydrodynamic_radii bdc
      = (bdc.map fun g => List.replicate g.count g.hydrodynamic_radius).flatten
    ∧ (_bead_steric_radii bdc).length = (bdc.map BeadGroup.count).sum
    ∧ (_bead_hydrodynamic_radii bdc).length = (bdc.map BeadGroup.count).sum := by
  have hs : _bead_steric_radii bdc
      = (bdc.map fun g => List.replicate g.count g.steric_radius).flatten := by
    rw [_bead_steric_radii, foldl_append_eq_flatten, List.nil_append]
  have hh : _bead_hydrodynamic_radii bdc
      = (bdc.map fun g => List.replicate g.count g.hydrodynamic_radius).flatten := by
    rw [_bead_hydrodynamic_radii, foldl_append_eq_flatten, List.nil_append]
  refine ⟨hs, hh, ?_, ?_⟩
  · rw [hs, List.length_flatten, List.map_map]
    simp [Function.comp_def]
  · rw [hh, List.length_flatten, List.map_map]
    simp [Function.comp_def]

/-- Claim C9: the excluded-volume radius of a fixed positive mass is strictly
decreasing in the effective density. -/
theorem excluded_volume_radius_strictly_decreasing (mass d1 d2 : ℝ)
    (hm : 0 < mass) (h1 : 0 < d1) (h12 : d1 < d2) :
    block_excluded_volume_radius mass d2 < block_excluded_volume_radius mass d1 := by
  have ha : 0 < mass * (3 / (4 * Real.pi)) := by positivity
  have h2 : 0 < d2 := h1.trans h12
  have key : mass * (3 / (4 * Real.pi)) / d2 < mass * (3 / (4 * Real.pi)) / d1 :=
    div_lt_div_of_pos_left ha h1 h12
  have h0 : (0 : ℝ) ≤ mass * (3 / (4 * Real.pi)) / d2 := (div_pos ha h2).le
  exact Real.rpow_lt_rpow h0 key (by norm_num)

theorem excluded_volume_radius_strictly_decreasing_witness :
    (0 : ℝ) < 1 ∧ (0 : ℝ) < 1 ∧ (1 : ℝ) < 2
    ∧ block_excluded_volume_radius 1 2 < block_excluded_volume_radius 1 1 :=
  ⟨one_pos, one_pos, one_lt_two,
    excluded_volume_radius_strictly_decreasing 1 1 2 one_pos one_pos one_lt_two⟩

/-- Claim C10: the aggregation only depends on the unordered multiset of
tensors — permuting the ensemble leaves the effective radius unchanged. -/
theorem effective_rh_perm_invariant {n : ℕ} (l l2 : List (MobT n))
    (h : l.Perm l2) : effective_rh l = effective_rh l2 := by
  have hm : tensorMean l = tensorMean l2 := by
    funext i j
    unfold tensorMean
    rw [h.length_eq, (h.map fun T => T i j).sum_eq]
  unfold effective_rh
  rw [hm]

theorem effective_rh_perm_invariant_witness :
    ([(fun _ _ => 1 : MobT 1), (fun _ _ => 0 : MobT 1)]).Perm
      [(fun _ _ => 0 : MobT 1), (fun _ _ => 1 : MobT 1)]
    ∧ effective_rh [(fun _ _ => 1 : MobT 1), (fun _ _ => 0 : MobT 1)]
      = effective_rh [(fun _ _ => 0 : MobT 1), (fun _ _ => 1 : MobT 1)] :=
  ⟨List.Perm.swap _ _ _,
    effective_rh_perm_invariant _ _ (List.Perm.swap _ _ _)⟩

/-- Auxiliary: a successfully parsed block contributes one bead group whose
count is `1` for a bracketed block and the block length for a free run. -/
theorem bdcBlock_ok_count (hrad srad ρ δ : ℝ) (masses : Char → Option ℝ)
    (b : List Char) (g : BeadGroup)
    (h : bdcBlock hrad srad ρ δ masses b = Except.ok g) :
    g.count = if bracketShape b then 1 else b.length := by
  unfold bdcBlock at h
  by_cases hb : bracketShape b = true
  · rw [if_pos hb] at h
    rw [if_pos hb]
    cases hm : blockMass masses ((b.drop 1).dropLast) with
    | error e => rw [hm] at h; exact Except.noConfusion h
    | ok mass => rw [hm] at h; cases h; rfl
  · rw [if_neg hb] at h
    rw [if_neg hb]
    by_cases hf : freeShape b = true
    · rw [if_pos hf] at h; cases h; rfl
    · rw [if_neg hf] at h; exact Except.noConfusion h

/-- Auxiliary: a successful parse pairs the split pieces with the produced
bead groups one-to-one, in order. -/
theorem bdcList_ok_forall2 (hrad srad ρ δ : ℝ) (masses : Char → Option ℝ) :
    ∀ (bs : List (List Char)) (gs : List BeadGroup),
      bdcList hrad srad ρ δ masses bs = Except.ok gs →
      List.Forall₂ (fun b g => bdcBlock hrad srad ρ δ masses b = Except.ok g) bs gs := by
  intro bs
  induction bs with
  | nil =>
    intro gs h
    unfold bdcList at h
    cases h
    exact List.Forall₂.nil
  | cons b bs ih =>
    intro gs h
    unfold bdcList at h
    cases hb : bdcBlock hrad srad ρ δ masses b with
    | error e => rw [hb] at h; exact Except.noConfusion h
    | ok g =>
      rw [hb] at h
      cases hl : bdcList hrad srad ρ δ masses bs with
      | error e => rw [hl] at h; exact Except.noConfusion h
      | ok gs2 =>
        rw [hl] at h
        cases h
        exact List.Forall₂.cons hb (ih gs2 hl)

/-- Auxiliary: summing the counts along the block/group correspondence. -/
theorem forall2_count_sum (hrad srad ρ δ : ℝ) (masses : Char → Option ℝ)
    (bs : List (List Char)) (gs : List BeadGroup)
    (h : List.Forall₂ (fun b g => bdcBlock hrad srad ρ δ masses b = Except.ok g) bs gs) :
    (gs.map BeadGroup.count).sum
      = ((bs.filter (fun b => !bracketShape b)).map List.length).sum
        + (bs.filter (fun b => bracketShape b)).length := by
  induction h with
  | nil => rfl
  | @cons b g bs2 gs2 hbg hrest ih =>
    have hc := bdcBlock_ok_count hrad srad ρ δ masses b g hbg
    by_cases hb : bracketShape b = true
    · rw [if_pos hb] at hc
      simp [List.filter_cons, hb, hc, ih] <;> omega
    · rw [if_neg hb] at hc
      have hb2 : bracketShape b = false := by
        cases hbb : bracketShape b with
        | true => exact absurd hbb hb
        | false => rfl
      simp [List.filter_cons, hb2, hc, ih] <;> omega

/-- Claim C6: a successful parse is order-preserving (the bead groups
correspond one-to-one, in order, to the pieces the splitter produced) and
conserves the total bead count: the counts sum to the number of residues in
free pieces plus the number of bracketed pieces. -/
theorem parse_order_preserving_and_count_conserving (seq : List Char)
    (hrad srad ρ δ : ℝ) (masses : Char → Option ℝ) (groups : List BeadGroup)
    (h : _bead_description_compact seq hrad srad ρ δ masses = Except.ok groups) :
    List.Forall₂ (fun b g => bdcBlock hrad srad ρ δ masses b = Except.ok g)
      (splitBlocks seq) groups
    ∧ (groups.map BeadGroup.count).sum
      = (((splitBlocks seq).filter (fun b => !bracketShape b)).map List.length).sum
        + ((splitBlocks seq).filter (fun b => bracketShape b)).length := by
  have h2 := bdcList_ok_forall2 hrad srad ρ δ masses (splitBlocks seq) groups h
  exact ⟨h2, forall2_count_sum hrad srad ρ δ masses _ _ h2⟩

theorem parse_order_preserving_and_count_conserving_witness :
    _bead_description_compact "AAAA".data 4.2 1.9025 0.52 3.0 default_aminoacid_masses
      = Except.ok [⟨4.2, 1.9025, 4⟩]
    ∧ (List.Forall₂
        (fun b g => bdcBlock 4.2 1.9025 0.52 3.0 default_aminoacid_masses b = Except.ok g)
        (splitBlocks "AAAA".data) [⟨4.2, 1.9025, 4⟩]
      ∧ (([⟨4.2, 1.9025, 4⟩] : List BeadGroup).map BeadGroup.count).sum
        = (((splitBlocks "AAAA".data).filter (fun b => !bracketShape b)).map List.length).sum
          + ((splitBlocks "AAAA".data).filter (fun b => bracketShape b)).length) :=
  ⟨rfl, parse_order_preserving_and_count_conserving _ _ _ _ _ _ _ rfl⟩

/-- Claim C5: each bootstrap round gathers a resampled ensemble of the same
size as the original one and applies the full aggregator reduction to it, and
the reported sigma is the population standard deviation (divisor: the number
of rounds) of the per-round bootstrap effective radii. -/
theorem bootstrap_sigma_matches_spec {n : ℕ} (grand_grand_mu : List (MobT n))
    (bootstrap_rounds : ℕ) (hrounds : 1 ≤ bootstrap_rounds)
    (draws : ℕ → Fin grand_grand_mu.length → Fin grand_grand_mu.length) :
    (∀ r : ℕ, (resampledEnsemble grand_grand_mu (draws r)).length
        = grand_grand_mu.length)
    ∧ bootstrap_sigma grand_grand_mu bootstrap_rounds draws
      = bootstrap_sigma_specSide grand_grand_mu bootstrap_rounds draws := by
  constructor
  · intro r
    simp [resampledEnsemble]
  · have hround : ∀ r : ℕ, bootstrap_round grand_grand_mu (draws r)
        = effective_rh (resampledEnsemble grand_grand_mu (draws r)) := fun _ => rfl
    unfold bootstrap_sigma bootstrap_sigma_specSide popStd
    simp only [hround, List.length_ofFn]

theorem bootstrap_sigma_matches_spec_witness :
    1 ≤ 1
    ∧ ((∀ r : ℕ, (resampledEnsemble [(fun _ _ => 1 : MobT 1)]
          ((fun _ k => k : ℕ → Fin 1 → Fin 1) r)).length
        = [(fun _ _ => 1 : MobT 1)].length)
      ∧ bootstrap_sigma [(fun _ _ => 1 : MobT 1)] 1 (fun _ k => k)
        = bootstrap_sigma_specSide [(fun _ _ => 1 : MobT 1)] 1 (fun _ k => k)) :=
  ⟨le_refl 1, bootstrap_sigma_matches_spec _ 1 (le_refl 1) _⟩

/-- Auxiliary: a `KeyError` from the mass sum identifies a symbol of the
summed run that is absent from the mapping. -/
theorem blockMass_unknown_mem (masses : Char → Option ℝ) :
    ∀ (l : List Char) (c : Char),
      blockMass masses l = Except.error (ParseErr.unknownResidue c) →
      masses c = none ∧ c ∈ l := by
  intro l
  induction l with
  | nil =>
    intro c h
    unfold blockMass at h
    exact Except.noConfusion h
  | cons a l ih =>
    intro c h
    unfold blockMass at h
    cases hm : masses a with
    | none =>
      rw [hm] at h
      injection h with h2
      injection h2 with h3
      subst h3
      exact ⟨hm, List.mem_cons_self a l⟩
    | some m =>
      rw [hm] at h
      cases hm2 : blockMass masses l with
      | error e =>
        rw [hm2] at h
        injection h with h2
        subst h2
        obtain ⟨h3, h4⟩ := ih c hm2
        exact ⟨h3, List.mem_cons_of_mem a h4⟩
      | ok s =>
        rw [hm2] at h
        exact Except.noConfusion h

/-- Auxiliary: only the bracketed branch of the block loop can raise a
`KeyError`, and it does so through the mass sum over the bracket interior. -/
theorem bdcBlock_unknown_shape (hrad srad ρ δ : ℝ) (masses : Char → Option ℝ)
    (b : List Char) (c : Char)
    (h : bdcBlock hrad srad ρ δ masses b = Except.error (ParseErr.unknownResidue c)) :
    bracketShape b = true
    ∧ blockMass masses ((b.drop 1).dropLast)
      = Except.error (ParseErr.unknownResidue c) := by
  unfold bdcBlock at h
  by_cases hb : bracketShape b = true
  · rw [if_pos hb] at h
    refine ⟨hb, ?_⟩
    cases hm : blockMass masses ((b.drop 1).dropLast) with
    | error e => rw [hm] at h; injection h with h2; rw [h2]
    | ok mass => rw [hm] at h; exact Except.noConfusion h
  · rw [if_neg hb] at h
    by_cases hf : freeShape b = true
    · rw [if_pos hf] at h; exact Except.noConfusion h
    · rw [if_neg hf] at h
      injection h with h2
      exact ParseErr.noConfusion h2

/-- Auxiliary: a `KeyError` from the block loop comes from some block of the
processed list. -/
theorem bdcList_unknown_exists (hrad srad ρ δ : ℝ) (masses : Char → Option ℝ) :
    ∀ (bs : List (List Char)) (c : Char),
      bdcList hrad srad ρ δ masses bs = Except.error (ParseErr.unknownResidue c) →
      ∃ b ∈ bs, bdcBlock hrad srad ρ δ masses b
        = Except.error (ParseErr.unknownResidue c) := by
  intro bs
  induction bs with
  | nil =>
    intro c h
    unfold bdcList at h
    exact Except.noConfusion h
  | cons b bs ih =>
    intro c h
    unfold bdcList at h
    cases hb : bdcBlock hrad srad ρ δ masses b with
    | error e =>
      rw [hb] at h
      injection h with h2
      subst h2
      exact ⟨b, List.mem_cons_self b bs, hb⟩
    | ok g =>
      rw [hb] at h
      cases hl : bdcList hrad srad ρ δ masses bs with
      | error e =>
        rw [hl] at h
        injection h with h2
        subst h2
        obtain ⟨b2, hmem, hbe⟩ := ih c hl
        exact ⟨b2, List.mem_cons_of_mem b hmem, hbe⟩
      | ok gs => rw [hl] at h; exact Except.noConfusion h

/-- Claim C8 (amended): an `UnknownResidue` failure of the parser can only
come from the mass lookup on the interior of a bracketed block — the failing
symbol lies strictly inside some bracketed piece of the split and is absent
from the mapping; free-segment symbols are never looked up. -/
theorem unknown_residue_only_from_bracketed_lookup (seq : List Char)
    (hrad srad ρ δ : ℝ) (masses : Char → Option ℝ) (c : Char)
    (h : _bead_description_compact seq hrad srad ρ δ masses
        = Except.error (ParseErr.unknownResidue c)) :
    masses c = none
    ∧ ∃ b ∈ splitBlocks seq, bracketShape b = true ∧ c ∈ (b.drop 1).dropLast := by
  obtain ⟨b, hbmem, hbe⟩ :=
    bdcList_unknown_exists hrad srad ρ δ masses (splitBlocks seq) c h
  obtain ⟨hshape, hmass⟩ := bdcBlock_unknown_shape hrad srad ρ δ masses b c hbe
  obtain ⟨hnone, hmem⟩ := blockMass_unknown_mem masses ((b.drop 1).dropLast) c hmass
  exact ⟨hnone, b, hbmem, hshape, hmem⟩

theorem unknown_residue_only_from_bracketed_lookup_witness :
    _bead_description_compact "AA[Ba]CC".data 4.2 1.9025 0.52 3.0 default_aminoacid_masses
      = Except.error (ParseErr.unknownResidue 'a')
    ∧ (default_aminoacid_masses 'a' = none
      ∧ ∃ b ∈ splitBlocks "AA[Ba]CC".data, bracketShape b = true
          ∧ 'a' ∈ (b.drop 1).dropLast) :=
  ⟨rfl, unknown_residue_only_from_bracketed_lookup "AA[Ba]CC".data
    4.2 1.9025 0.52 3.0 default_aminoacid_masses 'a' rfl⟩

/-- Claim C8 (counterexample): for the sequence `"[Aa]"` the bracketed block
does contain a symbol absent from the default mass table, yet the parser does
not raise `UnknownResidue` — the empty piece in front of the bracketed block
raises `MalformedSequence` first.  This refutes the claimed equivalence. -/
theorem unknown_residue_iff_refuted :
    ¬ ((∃ c, _bead_description_compact "[Aa]".data 4.2 1.9025 0.52 3.0
            default_aminoacid_masses
          = Except.error (ParseErr.unknownResidue c))
       ↔ ∃ b ∈ splitBlocks "[Aa]".data, bracketShape b = true
          ∧ ∃ c ∈ (b.drop 1).dropLast, default_aminoacid_masses c = none) := by
  intro hiff
  obtain ⟨c, hc⟩ := hiff.mpr ⟨"[Aa]".data, by decide, by decide, 'a', by decide, rfl⟩
  rw [show _bead_description_compact "[Aa]".data 4.2 1.9025 0.52 3.0
        default_aminoacid_masses
      = Except.error (ParseErr.malformed []) from rfl] at hc
  injection hc with hc2
  exact ParseErr.noConfusion hc2
